import Mathlib

/-!
Verification of the fusis distributed state store and VIP allocator.

Shallow embedding of:
  - `src/store/store.go` — `FusisStore`: key layout, add/delete operations over
    a key-value store, the two watch loops (decode + broadcast), subscriber
    registration, and `New` (backend selection by URL scheme).
  - `src/ipam/ipam.go` — `Ipam`: `AllocateVIP`, `ipIsAssigned`, `ReleaseVIP`
    over a configured address range with a stateful cursor.

Parts of the repository outside `src/` (the `api/types` entity structs, the
`state` snapshot accessor, and the external range cursor library) are modelled
from the spec; each such definition carries a `Modelled from the spec:` note.
-/

namespace Fusis

/-- Modelled from the spec: the `api/types` package is not under `src/`.
Per the spec's data model, a `Service` has identity `ID` (string, unique),
`Host` (assigned VIP, empty until allocated), and scheduling attributes
(port, protocol, scheduler). -/
structure Service where
  ID : String
  Host : String
  Port : Nat
  Protocol : String
  Scheduler : String
deriving DecidableEq, Repr

/-- Modelled from the spec: a `Destination` has identity `ID` scoped under a
parent `Service.ID`; it represents a backend real-server (host and port). -/
structure Destination where
  ID : String
  Host : String
  Port : Nat
  ServiceID : String
deriving DecidableEq, Repr

/-- Modelled from the spec: a `CheckSpec` is a health-check definition scoped
under a `ServiceID`. -/
structure CheckSpec where
  ServiceID : String
  CheckType : String
  Interval : Nat
deriving DecidableEq, Repr

/-- The zero value `types.Service{}` that Go leaves in place when
`json.Unmarshal` fails into a freshly declared struct. -/
def zeroService : Service := ⟨"", "", 0, "", ""⟩

/-- Modelled from the spec: `svc.GetId()` (from `api/types`, not under `src/`)
returns the service's identity `ID`. -/
def Service.GetId (s : Service) : String := s.ID

/-- Modelled from the spec: `dst.GetId()` returns the destination's identity. -/
def Destination.GetId (d : Destination) : String := d.ID

/-- Structured JSON-like value: the self-describing byte encoding produced by
`json.Marshal` and consumed by `json.Unmarshal`, modelled at the level of the
structured document rather than raw bytes. -/
inductive Json where
  | str : String → Json
  | num : Nat → Json
  | obj : List (String × Json) → Json

/-- Field lookup in a JSON object, as `json.Unmarshal` resolves struct fields
by name. -/
def getField : List (String × Json) → String → Option Json
  | [], _ => none
  | (k, v) :: rest, key => if k = key then some v else getField rest key

/-- Reads a JSON string field. -/
def asStr : Option Json → Option String
  | some (Json.str s) => some s
  | _ => none

/-- Reads a JSON number field. -/
def asNum : Option Json → Option Nat
  | some (Json.num n) => some n
  | _ => none

/-- Encoding of a `Service`, as written by `AddService` via `json.Marshal`. -/
def encodeService (s : Service) : Json :=
  Json.obj [("ID", Json.str s.ID), ("Host", Json.str s.Host),
    ("Port", Json.num s.Port), ("Protocol", Json.str s.Protocol),
    ("Scheduler", Json.str s.Scheduler)]

/-- Decoding of a `Service`, as read by the watch loop via `json.Unmarshal`. -/
def decodeService (j : Json) : Option Service :=
  match j with
  | Json.obj fs =>
    match asStr (getField fs "ID"), asStr (getField fs "Host"),
        asNum (getField fs "Port"), asStr (getField fs "Protocol"),
        asStr (getField fs "Scheduler") with
    | some id, some host, some port, some proto, some sched =>
      some ⟨id, host, port, proto, sched⟩
    | _, _, _, _, _ => none
  | _ => none

/-- Encoding of a `Destination`, as written by `AddDestination`. -/
def encodeDestination (d : Destination) : Json :=
  Json.obj [("ID", Json.str d.ID), ("Host", Json.str d.Host),
    ("Port", Json.num d.Port), ("ServiceID", Json.str d.ServiceID)]

/-- Decoding of a `Destination`, as read by the destinations watch loop. -/
def decodeDestination (j : Json) : Option Destination :=
  match j with
  | Json.obj fs =>
    match asStr (getField fs "ID"), asStr (getField fs "Host"),
        asNum (getField fs "Port"), asStr (getField fs "ServiceID") with
    | some id, some host, some port, some sid => some ⟨id, host, port, sid⟩
    | _, _, _, _ => none
  | _ => none

/-- Encoding of a `CheckSpec`, as written by `AddCheck`. -/
def encodeCheckSpec (c : CheckSpec) : Json :=
  Json.obj [("ServiceID", Json.str c.ServiceID), ("Type", Json.str c.CheckType),
    ("Interval", Json.num c.Interval)]

/-- Decoding of a `CheckSpec`. -/
def decodeCheckSpec (j : Json) : Option CheckSpec :=
  match j with
  | Json.obj fs =>
    match asStr (getField fs "ServiceID"), asStr (getField fs "Type"),
        asNum (getField fs "Interval") with
    | some sid, some ty, some iv => some ⟨sid, ty, iv⟩
    | _, _, _ => none
  | _ => none

/-- Prefix test over character lists; the libkv `DeleteTree` operation removes
every stored key having the given string as a prefix. -/
def listPref : List Char → List Char → Bool
  | [], _ => true
  | _ :: _, [] => false
  | a :: as, b :: bs => a == b && listPref as bs

/-- String prefix test in terms of the underlying character lists. -/
def strHasPref (p s : String) : Bool := listPref p.data s.data

/-- The key-value backend state: an association list from keys to stored
encoded values, modelling the generic libkv store consumed by `FusisStore`. -/
def KVStore := List (String × Json)

/-- `kv.Put`: stores a value under a key, replacing any existing entry. -/
def kvPut : KVStore → String → Json → KVStore
  | [], k, v => [(k, v)]
  | (k', v') :: rest, k, v =>
    if k' = k then (k, v) :: rest else (k', v') :: kvPut rest k v

/-- `kv.DeleteTree`: removes every entry whose key has the given prefix. -/
def kvDeleteTree (st : KVStore) (p : String) : KVStore :=
  st.filter (fun e => !(strHasPref p e.1))

/-- Key lookup in the backend state. -/
def kvLookup : KVStore → String → Option Json
  | [], _ => none
  | (k', v) :: rest, k => if k' = k then some v else kvLookup rest k

/-- Key written by `AddService`: `fusis/services/%s/config`. -/
def serviceConfigKey (id : String) : String :=
  "fusis/services/" ++ id ++ "/config"

/-- Key prefix deleted by `DeleteService`: `fusis/services/%s`. -/
def serviceTreeKey (id : String) : String := "fusis/services/" ++ id

/-- Key written by `AddDestination` and deleted by `DeleteDestination`:
`fusis/destinations/%s/%s`. -/
def destinationKey (sid did : String) : String :=
  "fusis/destinations/" ++ sid ++ "/" ++ did

/-- `FusisStore.AddService`: marshals the service and puts it at
`fusis/services/{id}/config`. -/
def AddService (st : KVStore) (svc : Service) : KVStore :=
  kvPut st (serviceConfigKey svc.GetId) (encodeService svc)

/-- `FusisStore.DeleteService`: deletes the subtree `fusis/services/{id}`. -/
def DeleteService (st : KVStore) (svc : Service) : KVStore :=
  kvDeleteTree st (serviceTreeKey svc.GetId)

/-- `FusisStore.AddDestination`: marshals the destination and puts it at
`fusis/destinations/{serviceID}/{destinationID}`. -/
def AddDestination (st : KVStore) (svc : Service) (dst : Destination) : KVStore :=
  kvPut st (destinationKey svc.GetId dst.GetId) (encodeDestination dst)

/-- `FusisStore.DeleteDestination`: deletes the subtree
`fusis/destinations/{serviceID}/{destinationID}`. -/
def DeleteDestination (st : KVStore) (svc : Service) (dst : Destination) :
    KVStore :=
  kvDeleteTree st (destinationKey svc.GetId dst.GetId)

/-- A prefix extends to any longer string: `listPref l (l ++ m) = true`. -/
theorem listPref_self_append (l m : List Char) : listPref l (l ++ m) = true := by
  induction l with
  | nil => rfl
  | cons a as ih => simp [listPref, ih]

/-- Deleting a subtree removes every key carrying the prefix. -/
theorem kvLookup_kvDeleteTree_of_pref (st : KVStore) (p k : String)
    (h : strHasPref p k = true) : kvLookup (kvDeleteTree st p) k = none := by
  induction st with
  | nil => rfl
  | cons e rest ih =>
    by_cases hp : strHasPref p e.1 = true
    · simpa [kvDeleteTree, List.filter, hp] using ih
    · have hk : e.1 ≠ k := fun hek => hp (hek ▸ h)
      simpa [kvDeleteTree, List.filter, hp, kvLookup, hk] using ih

/-- Deleting a subtree leaves lookups of keys outside the prefix unchanged. -/
theorem kvLookup_kvDeleteTree_of_not_pref (st : KVStore) (p k : String)
    (h : strHasPref p k = false) :
    kvLookup (kvDeleteTree st p) k = kvLookup st k := by
  induction st with
  | nil => rfl
  | cons e rest ih =>
    by_cases hek : e.1 = k
    · have hp : strHasPref p e.1 = false := hek ▸ h
      cases e with
      | mk k' v => simp_all [kvDeleteTree, List.filter, kvLookup]
    · by_cases hp : strHasPref p e.1 = true
      · simpa [kvDeleteTree, List.filter, hp, kvLookup, hek] using ih
      · cases e with
        | mk k' v => simp_all [kvDeleteTree, List.filter, kvLookup]

/-- The characters of the literal `fusis/services/`. -/
theorem data_services_lit : ("fusis/services/" : String).data =
    ['f', 'u', 's', 'i', 's', '/', 's', 'e', 'r', 'v', 'i', 'c', 'e', 's', '/'] := rfl

/-- The characters of the literal `fusis/destinations/`. -/
theorem data_dest_lit : ("fusis/destinations/" : String).data =
    ['f', 'u', 's', 'i', 's', '/', 'd', 'e', 's', 't', 'i', 'n', 'a', 't', 'i',
      'o', 'n', 's', '/'] := rfl

/-- No service subtree key is a prefix of any destination key: the two key
families diverge at their seventh character. -/
theorem serviceTree_not_pref_destKey (i sid did : String) :
    strHasPref (serviceTreeKey i) (destinationKey sid did) = false := by
  unfold strHasPref serviceTreeKey destinationKey
  rw [String.data_append, String.data_append, String.data_append,
    String.data_append, data_services_lit, data_dest_lit]
  simp [listPref]

/-- The service subtree key is a prefix of that service's config key. -/
theorem serviceTree_pref_configKey (i : String) :
    strHasPref (serviceTreeKey i) (serviceConfigKey i) = true := by
  unfold strHasPref serviceTreeKey serviceConfigKey
  rw [String.data_append, String.data_append, String.data_append]
  exact listPref_self_append _ _

/-- A concrete service used as a counterexample input. -/
def svcA : Service := ⟨"a", "10.0.0.1", 80, "tcp", "rr"⟩

/-- A concrete destination of `svcA` used as a counterexample input. -/
def dstD : Destination := ⟨"d1", "192.168.1.1", 8080, "a"⟩

/-- C2 counterexample: add service `a` and a destination `d1` under it, then
`DeleteService a`. The destination entry keyed under service ID `a` is still
present in the store, contradicting the claim that deleting a service removes
all destination entries keyed under its ID. -/
theorem deleteService_keeps_own_destination :
    kvLookup
      (DeleteService (AddDestination (AddService [] svcA) svcA dstD) svcA)
      (destinationKey "a" "d1") = some (encodeDestination dstD) := rfl

/-- C2 amended: after `DeleteService svc`, the store contains no key of the
`services/{id}` subtree (in particular not `services/{id}/config`), while the
destination entries keyed under every service ID — including `svc`'s own — are
exactly as before the call. -/
theorem deleteService_scope (st : KVStore) (svc : Service) :
    kvLookup (DeleteService st svc) (serviceConfigKey svc.GetId) = none ∧
    ∀ sid did, kvLookup (DeleteService st svc) (destinationKey sid did) =
      kvLookup st (destinationKey sid did) := by
  constructor
  · exact kvLookup_kvDeleteTree_of_pref st _ _ (serviceTree_pref_configKey _)
  · intro sid did
    exact kvLookup_kvDeleteTree_of_not_pref st _ _
      (serviceTree_not_pref_destKey _ sid did)

/-- One entry of the `WatchServices` loop body: Go declares
`svc := types.Service{}`, attempts `json.Unmarshal(pair.Value, &svc)`, logs on
failure, and then appends `svc` to the batch slice unconditionally — so a
failed decode contributes the zero value to the snapshot. -/
def decodeEntryOrZero (v : Json) : Service :=
  (decodeService v).getD zeroService

/-- The decode phase of one `WatchServices` cycle: each raw entry of the
received batch contributes one element to the accumulated snapshot. -/
def watchServicesCycle (entries : List Json) : List Service :=
  entries.map decodeEntryOrZero

/-- C1 evaluation at the failing input: a batch holding one malformed entry
and one well-formed entry produces the snapshot `[zeroService, svcA]` — the
malformed entry is not skipped but appears as the zero-value service, so the
snapshot differs from the `[svcA]` the claim requires. -/
theorem watchServices_malformed_not_skipped :
    watchServicesCycle [Json.str "garbage", encodeService svcA]
        = [zeroService, svcA] ∧
      watchServicesCycle [Json.str "garbage", encodeService svcA] ≠ [svcA] :=
  ⟨rfl, by decide⟩

/-- `FusisStore.SubscribeServices`: appends the channel to the registry under
the store lock; the registry is kept in registration order. Channels are
identified by natural numbers. -/
def SubscribeServices (chans : List Nat) (ch : Nat) : List Nat := chans ++ [ch]

/-- The broadcast step of one watch cycle: under the store lock, the loop
sends the single snapshot value to every registered channel in registry
order. Modelled as the ordered sequence of (channel, value) send events. -/
def broadcastSends (chans : List Nat) (snap : List Service) :
    List (Nat × List Service) :=
  chans.map (fun ch => (ch, snap))

/-- Registering channels one at a time yields the registry in registration
order. -/
theorem foldl_subscribe (regs acc : List Nat) :
    regs.foldl SubscribeServices acc = acc ++ regs := by
  induction regs generalizing acc with
  | nil => simp
  | cons r rest ih => simp [SubscribeServices, ih]

/-- C5: for every sequence of channel registrations performed before a watch
cycle and every raw batch, the cycle's broadcast sends exactly one event per
registered channel, in registration order, and every event carries the same
snapshot value. -/
theorem watch_fanout_consistent (regs : List Nat) (entries : List Json) :
    (broadcastSends (regs.foldl SubscribeServices [])
        (watchServicesCycle entries)).map Prod.fst = regs ∧
    ∀ p ∈ broadcastSends (regs.foldl SubscribeServices [])
        (watchServicesCycle entries),
      p.2 = watchServicesCycle entries := by
  constructor
  · simp only [broadcastSends, foldl_subscribe, List.nil_append, List.map_map]
    exact List.map_id regs
  · intro p hp
    simp only [broadcastSends, List.mem_map] at hp
    obtain ⟨ch, _, rfl⟩ := hp
    rfl

/-- Witness for C5 at a concrete registration list and batch. -/
theorem watch_fanout_consistent_witness :
    ((7, watchServicesCycle []) : Nat × List Service).2 =
      watchServicesCycle [] :=
  (watch_fanout_consistent [7] []).2 (7, watchServicesCycle [])
    (by simp [SubscribeServices, broadcastSends])

/-- Modelled from the spec: the range cursor (`ipaddr.Cursor`, an external
library not part of this repository) iterates the configured address range
from its current position; `First` is the range's first address and `Set`
repositions the cursor. Addresses are the strings `pos.IP.String()` produces,
listed in range order; the position is an index into that list. -/
structure Cursor where
  addrs : List String
  pos : Nat
deriving DecidableEq, Repr

/-- The ipam module state: the stateful range cursor built by `ipam.New` from
the first configured range. -/
structure Ipam where
  rangeCursor : Cursor
deriving DecidableEq, Repr

/-- `ErrNoVipAvailable`, the only ipam error. -/
inductive IpamError where
  | noVipAvailable
deriving DecidableEq, Repr

/-- `Ipam.ipIsAssigned`: scans the snapshot `state.GetServices()` returns
(modelled from the spec as the explicit list of known services) and reports
whether some service's `Host` equals the candidate address. -/
def ipIsAssigned (e : String) (services : List Service) : Bool :=
  services.any (fun a => a.Host == e)

/-- The cursor loop inside `AllocateVIP`: starting from the cursor position,
test each remaining address of the range until one is unassigned. -/
def scanFree : List String → List Service → Option String
  | [], _ => none
  | ip :: rest, services =>
    if ipIsAssigned ip services then scanFree rest services else some ip

/-- `Ipam.AllocateVIP`: iterate the range from the current cursor position; on
the first unassigned address, reset the cursor to the range's first address,
set the service's `Host` to that address and return success (`nil` error); if
the scan exhausts the range, return `ErrNoVipAvailable` with the cursor left
at range end and the service untouched. -/
def AllocateVIP (i : Ipam) (s : Service) (services : List Service) :
    Ipam × Service × Option IpamError :=
  match scanFree (i.rangeCursor.addrs.drop i.rangeCursor.pos) services with
  | some ip => (⟨⟨i.rangeCursor.addrs, 0⟩⟩, { s with Host := ip }, none)
  | none =>
    (⟨⟨i.rangeCursor.addrs, i.rangeCursor.addrs.length⟩⟩, s,
      some IpamError.noVipAvailable)

/-- `Ipam.ReleaseVIP`: a no-op placeholder returning success. -/
def ReleaseVIP (i : Ipam) (_s : Service) : Ipam × Option IpamError := (i, none)

/-- The scan finds nothing when every remaining address is assigned. -/
theorem scanFree_eq_none (l : List String) (svcs : List Service)
    (h : ∀ a ∈ l, ipIsAssigned a svcs = true) : scanFree l svcs = none := by
  induction l with
  | nil => rfl
  | cons ip rest ih =>
    have hip := h ip (List.mem_cons_self ip rest)
    simp only [scanFree, hip, if_true]
    exact ih fun a ha => h a (List.mem_cons_of_mem ip ha)

/-- The scan's result is an unassigned address, and every address the scan
passed over before it was assigned. -/
theorem scanFree_eq_some (l : List String) (svcs : List Service) (ip : String)
    (h : scanFree l svcs = some ip) :
    ipIsAssigned ip svcs = false ∧
      ∃ pre post, l = pre ++ ip :: post ∧
        ∀ a ∈ pre, ipIsAssigned a svcs = true := by
  induction l with
  | nil => exact absurd h (by simp [scanFree])
  | cons hd rest ih =>
    by_cases ha : ipIsAssigned hd svcs = true
    · have h' : scanFree rest svcs = some ip := by
        simpa [scanFree, ha] using h
      obtain ⟨hfree, pre, post, hsplit, hall⟩ := ih h'
      refine ⟨hfree, hd :: pre, post, by simp [hsplit], ?_⟩
      intro a hamem
      rcases List.mem_cons.mp hamem with rfl | hmem
      · exact ha
      · exact hall a hmem
    · have hb : ipIsAssigned hd svcs = false := by
        simpa using ha
      have hip : hd = ip := by simpa [scanFree, hb] using h
      subst hip
      exact ⟨hb, [], rest, rfl, by simp⟩

/-- The scan succeeds when some remaining address is unassigned. -/
theorem scanFree_isSome (l : List String) (svcs : List Service)
    (h : ∃ a ∈ l, ipIsAssigned a svcs = false) :
    ∃ ip, scanFree l svcs = some ip := by
  induction l with
  | nil => simp at h
  | cons hd rest ih =>
    by_cases ha : ipIsAssigned hd svcs = true
    · obtain ⟨a, hmem, hfree⟩ := h
      rcases List.mem_cons.mp hmem with rfl | hmem
      · exact absurd ha (by simp [hfree])
      · obtain ⟨ip, hip⟩ := ih ⟨a, hmem, hfree⟩
        exact ⟨ip, by simp [scanFree, ha, hip]⟩
    · exact ⟨hd, by simp [scanFree, ha]⟩

/-- The three-address range of the spec's example scenario. -/
def rangeABC : List String := ["10.0.0.1", "10.0.0.2", "10.0.0.3"]

/-- A service occupying `10.0.0.1`. -/
def svcOcc1 : Service := ⟨"s1", "10.0.0.1", 80, "tcp", "rr"⟩

/-- A service occupying `10.0.0.2`. -/
def svcOcc2 : Service := ⟨"s2", "10.0.0.2", 80, "tcp", "rr"⟩

/-- A service occupying `10.0.0.3`. -/
def svcOcc3 : Service := ⟨"s3", "10.0.0.3", 80, "tcp", "rr"⟩

/-- A new service before VIP allocation: `Host` is empty. -/
def freshSvc : Service := ⟨"new", "", 0, "tcp", "rr"⟩

/-- A second new service before VIP allocation. -/
def freshSvc2 : Service := ⟨"new2", "", 0, "tcp", "rr"⟩

/-- C3: with the cursor at range start, whenever some address of the range is
unassigned, `AllocateVIP` succeeds and assigns the first address of the range
(in range order) that equals no known service's `Host`: the range splits as
`pre ++ ip :: post` with every address of `pre` assigned and `ip` free. -/
theorem allocateVIP_assigns_first_free (addrs : List String)
    (svcs : List Service) (s : Service)
    (h : ∃ a ∈ addrs, ipIsAssigned a svcs = false) :
    ∃ ip pre post,
      AllocateVIP ⟨⟨addrs, 0⟩⟩ s svcs =
        (⟨⟨addrs, 0⟩⟩, { s with Host := ip }, none) ∧
      addrs = pre ++ ip :: post ∧
      (∀ a ∈ pre, ipIsAssigned a svcs = true) ∧
      ipIsAssigned ip svcs = false := by
  obtain ⟨ip, hip⟩ := scanFree_isSome addrs svcs h
  obtain ⟨hfree, pre, post, hsplit, hall⟩ := scanFree_eq_some addrs svcs ip hip
  exact ⟨ip, pre, post, by simp [AllocateVIP, hip], hsplit, hall, hfree⟩

/-- Witness for C3 at the spec's example scenario: range `10.0.0.1–10.0.0.3`
with `10.0.0.1` occupied. -/
theorem allocateVIP_assigns_first_free_witness :
    ∃ ip pre post,
      AllocateVIP ⟨⟨rangeABC, 0⟩⟩ freshSvc [svcOcc1] =
        (⟨⟨rangeABC, 0⟩⟩, { freshSvc with Host := ip }, none) ∧
      rangeABC = pre ++ ip :: post ∧
      (∀ a ∈ pre, ipIsAssigned a [svcOcc1] = true) ∧
      ipIsAssigned ip [svcOcc1] = false :=
  allocateVIP_assigns_first_free rangeABC [svcOcc1] freshSvc
    ⟨"10.0.0.2", by decide, by decide⟩

/-- C6: whenever every address of the range equals some snapshot service's
`Host` (in particular when `K` distinct services occupy all `K` addresses),
`AllocateVIP` returns `ErrNoVipAvailable` from any cursor position, leaving
the service untouched and the cursor at range end. -/
theorem allocateVIP_range_exhausted (addrs : List String) (cpos : Nat)
    (svcs : List Service) (s : Service)
    (h : ∀ a ∈ addrs, ∃ sv ∈ svcs, sv.Host = a) :
    AllocateVIP ⟨⟨addrs, cpos⟩⟩ s svcs =
      (⟨⟨addrs, addrs.length⟩⟩, s, some IpamError.noVipAvailable) := by
  have hall : ∀ a ∈ addrs.drop cpos, ipIsAssigned a svcs = true := by
    intro a ha
    obtain ⟨sv, hsv, hhost⟩ := h a (List.mem_of_mem_drop ha)
    simp only [ipIsAssigned, List.any_eq_true]
    exact ⟨sv, hsv, by simp [hhost]⟩
  simp [AllocateVIP, scanFree_eq_none _ _ hall]

/-- Witness for C6: all three addresses of the example range occupied by three
distinct services. -/
theorem allocateVIP_range_exhausted_witness :
    AllocateVIP ⟨⟨rangeABC, 0⟩⟩ freshSvc [svcOcc1, svcOcc2, svcOcc3] =
      (⟨⟨rangeABC, 3⟩⟩, freshSvc, some IpamError.noVipAvailable) :=
  allocateVIP_range_exhausted rangeABC 0 [svcOcc1, svcOcc2, svcOcc3] freshSvc
    (by decide)

/-- C7: whenever `AllocateVIP` succeeds, the `Host` it assigned differs from
the `Host` of every service in the snapshot it consulted. -/
theorem allocateVIP_excludes_assigned (i : Ipam) (s : Service)
    (svcs : List Service) (i' : Ipam) (s' : Service)
    (h : AllocateVIP i s svcs = (i', s', none)) :
    ∀ sv ∈ svcs, sv.Host ≠ s'.Host := by
  rcases hscan : scanFree (i.rangeCursor.addrs.drop i.rangeCursor.pos) svcs
    with _ | ip
  · simp [AllocateVIP, hscan, Prod.ext_iff] at h
  · have hfree := (scanFree_eq_some _ _ _ hscan).1
    simp only [AllocateVIP, hscan, Prod.ext_iff] at h
    obtain ⟨-, hs, -⟩ := h
    simp only [ipIsAssigned, List.any_eq_false] at hfree
    intro sv hsv heq
    have := hfree sv hsv
    rw [← hs] at heq
    simp [heq] at this

/-- Witness for C7: the successful allocation of `10.0.0.2` avoids the
occupied `10.0.0.1`. -/
theorem allocateVIP_excludes_assigned_witness :
    svcOcc1.Host ≠ (Service.mk "new" "10.0.0.2" 0 "tcp" "rr").Host :=
  allocateVIP_excludes_assigned ⟨⟨rangeABC, 0⟩⟩ freshSvc [svcOcc1]
    ⟨⟨rangeABC, 0⟩⟩ (Service.mk "new" "10.0.0.2" 0 "tcp" "rr") (by decide)
    svcOcc1 (by decide)

/-- C8: every successful `AllocateVIP` resets the cursor to the range's first
address; consequently, from a fresh allocator (cursor at range start) with an
unchanged snapshot, a second call right after a successful first call succeeds
with the very same address. -/
theorem allocateVIP_resets_cursor_deterministic (addrs : List String)
    (svcs : List Service) :
    (∀ i s i' s', AllocateVIP i s svcs = (i', s', none) →
      i'.rangeCursor = ⟨i.rangeCursor.addrs, 0⟩) ∧
    (∀ s₁ s₂ i' s₁', AllocateVIP ⟨⟨addrs, 0⟩⟩ s₁ svcs = (i', s₁', none) →
      AllocateVIP i' s₂ svcs = (i', { s₂ with Host := s₁'.Host }, none)) := by
  constructor
  · intro i s i' s' h
    rcases hscan : scanFree (i.rangeCursor.addrs.drop i.rangeCursor.pos) svcs
      with _ | ip
    · simp [AllocateVIP, hscan, Prod.ext_iff] at h
    · simp only [AllocateVIP, hscan, Prod.ext_iff] at h
      exact h.1 ▸ rfl
  · intro s₁ s₂ i' s₁' h
    rcases hscan : scanFree addrs svcs with _ | ip
    · simp [AllocateVIP, List.drop_zero, hscan, Prod.ext_iff] at h
    · simp only [AllocateVIP, List.drop_zero, hscan, Prod.ext_iff] at h
      obtain ⟨hi, hs, -⟩ := h
      rw [← hi, ← hs]
      simp [AllocateVIP, List.drop_zero, hscan]

/-- Witness for C8: after the first allocation of `10.0.0.2` from the fresh
allocator, a second call on the unchanged snapshot returns `10.0.0.2` again. -/
theorem allocateVIP_resets_cursor_deterministic_witness :
    AllocateVIP ⟨⟨rangeABC, 0⟩⟩ freshSvc2 [svcOcc1] =
      (⟨⟨rangeABC, 0⟩⟩,
        { freshSvc2 with
            Host := (Service.mk "new" "10.0.0.2" 0 "tcp" "rr").Host }, none) :=
  (allocateVIP_resets_cursor_deterministic rangeABC [svcOcc1]).2
    freshSvc freshSvc2 ⟨⟨rangeABC, 0⟩⟩
    (Service.mk "new" "10.0.0.2" 0 "tcp" "rr") (by decide)

/-- C10: whenever `AllocateVIP` fails with `ErrNoVipAvailable`, the service it
was given is returned unchanged — in particular its `Host` keeps its previous
value. -/
theorem allocateVIP_failure_atomic (i : Ipam) (s : Service)
    (svcs : List Service) (i' : Ipam) (s' : Service) (e : IpamError)
    (h : AllocateVIP i s svcs = (i', s', some e)) : s' = s := by
  rcases hscan : scanFree (i.rangeCursor.addrs.drop i.rangeCursor.pos) svcs
    with _ | ip
  · simp only [AllocateVIP, hscan, Prod.ext_iff] at h
    exact h.2.1.symm
  · simp [AllocateVIP, hscan, Prod.ext_iff] at h

/-- Witness for C10: an exhausted one-address range fails and leaves the
service as it was. -/
theorem allocateVIP_failure_atomic_witness : freshSvc = freshSvc :=
  allocateVIP_failure_atomic ⟨⟨["10.0.0.1"], 0⟩⟩ freshSvc [svcOcc1]
    ⟨⟨["10.0.0.1"], 1⟩⟩ freshSvc IpamError.noVipAvailable (by decide)

/-- Errors of `store.New`: `ErrUnsupportedStore` for an unknown scheme, or a
wrapped libkv connection failure. -/
inductive StoreError where
  | unsupportedStore
  | connectionError
deriving DecidableEq, Repr

/-- The result of `url.Parse` on the connection string (Go standard library,
external to the repository): its scheme and host components. -/
structure ParsedURL where
  scheme : String
  host : String
deriving DecidableEq, Repr

/-- `store.New`: rejects any scheme other than `consul` or `etcd` with
`ErrUnsupportedStore`, then asks libkv to build the backend client — modelled
as an oracle returning the client handle or a connection failure, which `New`
wraps as a connection error. -/
def NewStore (u : ParsedURL) (libkvNewStore : String → String → Option Nat) :
    Except StoreError Nat :=
  if u.scheme ≠ "consul" ∧ u.scheme ≠ "etcd" then
    Except.error StoreError.unsupportedStore
  else
    match libkvNewStore u.scheme u.host with
    | some kvh => Except.ok kvh
    | none => Except.error StoreError.connectionError

/-- C9: construction fails with `ErrUnsupportedStore` exactly for connection
strings whose scheme is neither `consul` nor `etcd`; for those two schemes the
result is never that error (it is the client or a connection error). -/
theorem newStore_scheme_check (u : ParsedURL)
    (bk : String → String → Option Nat) :
    (u.scheme ≠ "consul" → u.scheme ≠ "etcd" →
      NewStore u bk = Except.error StoreError.unsupportedStore) ∧
    ((u.scheme = "consul" ∨ u.scheme = "etcd") →
      NewStore u bk ≠ Except.error StoreError.unsupportedStore) := by
  constructor
  · intro h1 h2
    simp [NewStore, h1, h2]
  · intro h
    have hcond : ¬(u.scheme ≠ "consul" ∧ u.scheme ≠ "etcd") := by
      rcases h with h | h <;> simp [h]
    simp only [NewStore, if_neg hcond]
    rcases bk u.scheme u.host with _ | kvh <;> simp

/-- Witness for C9: the scheme `zookeeper` is rejected while `consul` is not,
independently of the backend outcome. -/
theorem newStore_scheme_check_witness :
    NewStore ⟨"zookeeper", "localhost:2181"⟩ (fun _ _ => some 0) =
        Except.error StoreError.unsupportedStore ∧
      NewStore ⟨"consul", "localhost:8500"⟩ (fun _ _ => some 0) ≠
        Except.error StoreError.unsupportedStore :=
  ⟨(newStore_scheme_check ⟨"zookeeper", "localhost:2181"⟩ (fun _ _ => some 0)).1
      (by decide) (by decide),
    (newStore_scheme_check ⟨"consul", "localhost:8500"⟩ (fun _ _ => some 0)).2
      (Or.inl rfl)⟩

/-- C4: for every valid `Service`, `Destination`, and `CheckSpec` value `x`
(including a `Service` whose `Host` is the empty string), decoding the bytes
the corresponding add operation writes yields a value equal to `x`:
`decode (encode x) = some x`. -/
theorem roundtrip_decode_encode :
    (∀ s : Service, decodeService (encodeService s) = some s) ∧
    (∀ d : Destination, decodeDestination (encodeDestination d) = some d) ∧
    (∀ c : CheckSpec, decodeCheckSpec (encodeCheckSpec c) = some c) := by
  refine ⟨fun s => ?_, fun d => ?_, fun c => ?_⟩ <;> rfl

end Fusis
